import Mathlib

/-!
Verification of the natural-language specification of `silence.py`
(mythcommflag-silence): a shallow embedding of the preset resolver
(class `PRESET`), the detector-output stream-processing loop of `main`,
and the surrounding run control flow, together with theorems settling
the spec's claims against the code.

Python strings are embedded as Lean `String` or `List Char` (the string
primitives the source uses — `split`, `strip`, `startswith`, digit
scanning — are modelled character by character so that everything is
executable), Python numbers (an int/float mix) as exact rationals `ℚ`,
and the side-effecting parts of `main` as a pure function that also
returns the list of externally visible actions it performs, in order.
-/

namespace Silence

attribute [local semireducible] Rat.mul Rat.add Rat.inv Rat.sub

/-! ### Python string primitives used by the source -/

/-- Whitespace test of Python `str.strip()`. -/
def pySpace (c : Char) : Bool :=
  c = ' ' ∨ c = '\t' ∨ c = '\n' ∨ c = '\r' ∨ c = '\x0b' ∨ c = '\x0c'

/-- Model of Python `s.strip()`: drop leading and trailing whitespace. -/
def pyStrip (cs : List Char) : List Char :=
  ((cs.dropWhile pySpace).reverse.dropWhile pySpace).reverse

/-- Model of Python `s.split(',')` (no maxsplit): `''.split(',') == ['']`. -/
def splitComma : List Char → List (List Char)
  | [] => [[]]
  | c :: rest =>
    if c = ',' then [] :: splitComma rest
    else
      match splitComma rest with
      | [] => [[c]]
      | g :: gs => (c :: g) :: gs

/-- Model of Python `line.split(sep, 1)` (maxsplit 1), keeping only the
two-element outcome: `none` when the separator does not occur (so that
unpacking `flag, info = ...` raises `ValueError`). -/
def splitAt1 (sep : Char) : List Char → Option (List Char × List Char)
  | [] => none
  | c :: rest =>
    if c = sep then some ([], rest)
    else (splitAt1 sep rest).map (fun p => (c :: p.1, p.2))

/-- Numeric value of a run of decimal digit characters (most significant
first), as computed by Python `int` on a digit string. -/
def digitsToNat (cs : List Char) : ℕ :=
  cs.foldl (fun a c => 10 * a + (c.toNat - 48)) 0

/-- Model of `re.findall(r'\d+', s)`: the maximal runs of decimal digits,
in order of occurrence.  The accumulator holds the current run reversed. -/
def digitRunsAux : List Char → List Char → List (List Char)
  | [], acc => if acc = [] then [] else [acc.reverse]
  | c :: rest, acc =>
    if c.isDigit then digitRunsAux rest (c :: acc)
    else if acc = [] then digitRunsAux rest []
    else acc.reverse :: digitRunsAux rest []

/-- The maximal runs of decimal digits of a string, in order. -/
def digitRuns (cs : List Char) : List (List Char) := digitRunsAux cs []

/-! ### Preset resolver: class `PRESET` -/

/-- Embedding of `PRESET.argname`: the fixed order of the six detector
parameters. -/
def argname : List String := ["thresh", "minquiet", "mindetect", "minbreak", "maxsep", "pad"]

/-- Embedding of `PRESET.argval`: the built-in default values.  The Python
list mixes ints and floats; both are modelled as exact rationals. -/
def argval : List ℚ := [-75, 16/100, 6, 120, 120, 48/100]

/-- Embedding of the initial value of the class attribute `PRESET.argdict`,
an ordered dictionary `zip(argname, argval)` modelled as an ordered
association list. -/
def argdictInit : List (String × ℚ) := argname.zip argval

/-- Exponent suffix of a Python float literal: optional sign then digits.
Scales the already-parsed mantissa. -/
def pyExp? (mant : ℚ) (cs : List Char) : Option ℚ :=
  let p : Bool × List Char :=
    match cs with
    | '-' :: r => (true, r)
    | '+' :: r => (false, r)
    | _ => (false, cs)
  let ds := p.2.takeWhile Char.isDigit
  let rest := p.2.dropWhile Char.isDigit
  if ds = [] ∨ rest ≠ [] then none
  else if p.1 then some (mant / 10 ^ digitsToNat ds)
  else some (mant * 10 ^ digitsToNat ds)

/-- Unsigned part of a Python float literal: `digits`, `digits.digits`,
`.digits`, `digits.`, each with an optional exponent. -/
def pyFloatCore (cs : List Char) : Option ℚ :=
  let ip := cs.takeWhile Char.isDigit
  let r1 := cs.dropWhile Char.isDigit
  match r1 with
  | [] => if ip = [] then none else some (digitsToNat ip)
  | '.' :: r2 =>
    let fp := r2.takeWhile Char.isDigit
    let r3 := r2.dropWhile Char.isDigit
    if ip = [] ∧ fp = [] then none
    else
      let mant : ℚ := (digitsToNat ip : ℚ) + (digitsToNat fp : ℚ) / 10 ^ fp.length
      match r3 with
      | [] => some mant
      | 'e' :: r4 => pyExp? mant r4
      | 'E' :: r4 => pyExp? mant r4
      | _ => none
  | 'e' :: r4 => if ip = [] then none else pyExp? (digitsToNat ip) r4
  | 'E' :: r4 => if ip = [] then none else pyExp? (digitsToNat ip) r4
  | _ => none

/-- Model of Python `float(s)` on the (already whitespace-stripped) field
strings of the resolver: an optional sign followed by a finite decimal
literal, yielding its exact rational value; any other string fails
(raises `ValueError` in the source).  The special values `inf`/`nan`,
which have no rational counterpart, are treated as unparseable. -/
def pyFloat? (cs : List Char) : Option ℚ :=
  match cs with
  | '-' :: rest => (pyFloatCore rest).map Neg.neg
  | '+' :: rest => pyFloatCore rest
  | cs => pyFloatCore cs

/-- Embedding of `PRESET._validate`: converts one preset field to a float,
or `none` if the field is missing, empty or fails to parse (the source
additionally logs an error in the last case). -/
def validate (k : String) (v : Option (List Char)) : String × Option ℚ :=
  match v with
  | none => (k, none)
  | some s => if s = [] then (k, none) else (k, pyFloat? s)

/-- Embedding of Python 2 `map(self._validate, argname, vals)`: with two
list arguments, Python 2's `map` pads the shorter list with `None`. -/
def mapValidate : List String → List (List Char) → List (String × Option ℚ)
  | [], _ => []
  | k :: ks, [] => validate k none :: mapValidate ks []
  | k :: ks, v :: vs => validate k (some v) :: mapValidate ks vs

/-- The update items `(k, x)` kept by `argdict.update(v for v in validargs
if v[1] is not None)`: the validated fields whose value is present. -/
def collectValid (ks : List String) (vs : List (List Char)) : List (String × ℚ) :=
  (mapValidate ks vs).filterMap (fun kv => kv.2.map (fun x => (kv.1, x)))

/-- One step of `OrderedDict.update`: an existing key keeps its position
and gets the new value; a new key is appended at the end. -/
def updateEntry (d : List (String × ℚ)) (kv : String × ℚ) : List (String × ℚ) :=
  if d.any (fun p => p.1 = kv.1) then
    d.map (fun p => if p.1 = kv.1 then kv else p)
  else d ++ [kv]

/-- Embedding of `OrderedDict.update` with a sequence of key/value pairs. -/
def dictUpdate (d : List (String × ℚ)) (kvs : List (String × ℚ)) : List (String × ℚ) :=
  kvs.foldl updateEntry d

/-- Core shared by both resolver paths: validate the (already sliced)
field strings against the six parameter names and update the dictionary
with the fields that parsed. -/
def applyFields (d : List (String × ℚ)) (vs : List (List Char)) : List (String × ℚ) :=
  dictUpdate d (collectValid argname vs)

/-- Embedding of `PRESET.getFromArg`: split the command-line preset string
on commas, strip each field, keep at most the first six, and apply them
positionally; the empty string is ignored. -/
def getFromArg (d : List (String × ℚ)) (line : String) : List (String × ℚ) :=
  if line = "" then d
  else applyFields d (((splitComma line.toList).map pyStrip).take argname.length)

/-! ### Positional-override specification of the resolver

The spec describes resolution as: the default value vector overridden
positionally by exactly the fields that parse as floats; empty or
unparseable fields retain the default.  `overrideVals` is that
description, written from the spec's words, to be compared with the
source-derived `applyFields`. -/

/-- Spec-side positional override: value `i` is the default unless field
`i` is present, non-empty and parses as a float. -/
def overrideVals : List ℚ → List (List Char) → List ℚ
  | [], _ => []
  | ds, [] => ds
  | d :: ds, v :: vs =>
    (if v = [] then d else (pyFloat? v).getD d) :: overrideVals ds vs

/-- Keys of an association list, in order. -/
def keysOf (d : List (String × ℚ)) : List String := d.map Prod.fst

theorem validate_fst (k : String) (v : Option (List Char)) : (validate k v).1 = k := by
  cases v with
  | none => rfl
  | some s =>
    show (if s = [] then (k, (none : Option ℚ)) else (k, pyFloat? s)).1 = k
    by_cases h : s = []
    · rw [if_pos h]
    · rw [if_neg h]

theorem mapValidate_fst (ks : List String) (vs : List (List Char)) :
    ∀ x ∈ mapValidate ks vs, x.1 ∈ ks := by
  induction ks generalizing vs with
  | nil => simp [mapValidate]
  | cons k ks ih =>
    cases vs with
    | nil =>
      intro x hx
      rcases List.mem_cons.mp hx with h | h
      · rw [h, validate_fst]
        exact List.mem_cons_self _ _
      · exact List.mem_cons_of_mem _ (ih [] x h)
    | cons v vs =>
      intro x hx
      rcases List.mem_cons.mp hx with h | h
      · rw [h, validate_fst]
        exact List.mem_cons_self _ _
      · exact List.mem_cons_of_mem _ (ih vs x h)

theorem collectValid_keys (ks : List String) (vs : List (List Char)) :
    ∀ kv ∈ collectValid ks vs, kv.1 ∈ ks := by
  intro kv hkv
  unfold collectValid at hkv
  obtain ⟨x, hx, hmap⟩ := List.mem_filterMap.mp hkv
  have h1 := mapValidate_fst ks vs x hx
  cases h2 : x.2 with
  | none => rw [h2] at hmap; simp [Option.map] at hmap
  | some q =>
    rw [h2] at hmap
    have hq : (x.1, q) = kv := by simpa using hmap
    rw [← hq]
    exact h1

theorem collectValid_nil (ks : List String) : collectValid ks [] = [] := by
  induction ks with
  | nil => rfl
  | cons k ks ih =>
    have hc : collectValid (k :: ks) [] =
        List.filterMap (fun kv => Option.map (fun x => (kv.1, x)) kv.2)
          (validate k none :: mapValidate ks []) := rfl
    rw [hc, List.filterMap_cons]
    exact ih

theorem collectValid_cons_none (k : String) (ks : List String) (v : List Char)
    (vs : List (List Char)) (h : (validate k (some v)).2 = none) :
    collectValid (k :: ks) (v :: vs) = collectValid ks vs := by
  have hc : collectValid (k :: ks) (v :: vs) =
      List.filterMap (fun kv => Option.map (fun x => (kv.1, x)) kv.2)
        (validate k (some v) :: mapValidate ks vs) := rfl
  rw [hc, List.filterMap_cons, h]
  rfl

theorem collectValid_cons_some (k : String) (ks : List String) (v : List Char)
    (vs : List (List Char)) (x : ℚ) (h : (validate k (some v)).2 = some x) :
    collectValid (k :: ks) (v :: vs) = (k, x) :: collectValid ks vs := by
  have hc : collectValid (k :: ks) (v :: vs) =
      List.filterMap (fun kv => Option.map (fun x => (kv.1, x)) kv.2)
        (validate k (some v) :: mapValidate ks vs) := rfl
  rw [hc, List.filterMap_cons, h]
  simp only [validate_fst]
  rfl

theorem overrideVals_nil (ds : List ℚ) : overrideVals ds [] = ds := by
  cases ds <;> rfl

theorem overrideVals_cons (d : ℚ) (ds : List ℚ) (v : List Char) (vs : List (List Char)) :
    overrideVals (d :: ds) (v :: vs) =
      (if v = [] then d else (pyFloat? v).getD d) :: overrideVals ds vs := rfl

theorem map_replace_notmem (d : List (String × ℚ)) (kv : String × ℚ)
    (h : kv.1 ∉ keysOf d) :
    d.map (fun p => if p.1 = kv.1 then kv else p) = d := by
  induction d with
  | nil => rfl
  | cons x d ih =>
    simp only [keysOf, List.map_cons, List.mem_cons, not_or] at h
    simp only [List.map_cons]
    rw [if_neg (fun hx => h.1 hx.symm), ih (by simpa [keysOf] using h.2)]

theorem updateEntry_cons_ne (x kv : String × ℚ) (d : List (String × ℚ))
    (h1 : kv.1 ≠ x.1) (h2 : kv.1 ∈ keysOf d) :
    updateEntry (x :: d) kv = x :: updateEntry d kv := by
  obtain ⟨p, hp, hfst⟩ := List.mem_map.mp h2
  have hany : d.any (fun p => p.1 = kv.1) = true :=
    List.any_eq_true.mpr ⟨p, hp, by simp [hfst]⟩
  unfold updateEntry
  rw [if_pos (by simp [List.any_cons, hany]), if_pos hany, List.map_cons,
    if_neg (fun hx => h1 hx.symm)]

theorem keysOf_updateEntry (d : List (String × ℚ)) (kv : String × ℚ)
    (h : kv.1 ∈ keysOf d) : keysOf (updateEntry d kv) = keysOf d := by
  obtain ⟨p, hp, hfst⟩ := List.mem_map.mp h
  unfold updateEntry
  rw [if_pos (List.any_eq_true.mpr ⟨p, hp, by simp [hfst]⟩)]
  unfold keysOf
  rw [List.map_map]
  apply List.map_congr_left
  intro q _
  by_cases hq : q.1 = kv.1 <;> simp [hq]

theorem dictUpdate_cons (x : String × ℚ) (d : List (String × ℚ))
    (kvs : List (String × ℚ))
    (h : ∀ kv ∈ kvs, kv.1 ∈ keysOf d ∧ kv.1 ≠ x.1) :
    dictUpdate (x :: d) kvs = x :: dictUpdate d kvs := by
  induction kvs generalizing d with
  | nil => rfl
  | cons kv kvs ih =>
    have hkv := h kv (List.mem_cons_self kv kvs)
    have step : dictUpdate (x :: d) (kv :: kvs) = dictUpdate (updateEntry (x :: d) kv) kvs := rfl
    rw [step, updateEntry_cons_ne x kv d hkv.2 hkv.1,
      ih (updateEntry d kv) (fun kv' hkv' => by
        rw [keysOf_updateEntry d kv hkv.1]
        exact h kv' (List.mem_cons_of_mem _ hkv'))]
    rfl

theorem dictUpdate_zip (ks : List String) (ds : List ℚ) (vs : List (List Char))
    (hnd : ks.Nodup) (hlen : ds.length = ks.length) (hvs : vs.length ≤ ks.length) :
    dictUpdate (ks.zip ds) (collectValid ks vs) = ks.zip (overrideVals ds vs) := by
  induction ks generalizing ds vs with
  | nil =>
    cases ds with
    | nil =>
      have : vs = [] := List.length_eq_zero.mp (Nat.le_zero.mp hvs)
      subst this
      rfl
    | cons d ds => simp at hlen
  | cons k ks ih =>
    cases ds with
    | nil => simp at hlen
    | cons d ds =>
      have hnd' : ks.Nodup := hnd.of_cons
      have hk : k ∉ ks := by
        intro hmem
        exact (List.nodup_cons.mp hnd).1 hmem
      have hlen' : ds.length = ks.length := by simpa using hlen
      have hkeys : keysOf (ks.zip ds) = ks := by
        unfold keysOf
        exact List.map_fst_zip ks ds (le_of_eq hlen'.symm)
      cases vs with
      | nil =>
        rw [collectValid_nil, overrideVals_nil]
        rfl
      | cons v vs =>
        have hvs' : vs.length ≤ ks.length := by simpa using hvs
        have hcons : ∀ kvs : List (String × ℚ), (∀ kv ∈ kvs, kv.1 ∈ ks) →
            ∀ kv ∈ kvs, kv.1 ∈ keysOf (ks.zip ds) ∧ kv.1 ≠ k := by
          intro kvs hsub kv hkv
          refine ⟨by rw [hkeys]; exact hsub kv hkv, fun he => hk (he ▸ hsub kv hkv)⟩
        rw [overrideVals_cons]
        by_cases hv : v = []
        · have hvv : (validate k (some v)).2 = none := by
            show (if v = [] then (k, (none : Option ℚ)) else (k, pyFloat? v)).2 = none
            rw [if_pos hv]
          rw [collectValid_cons_none k ks v vs hvv,
            show (k :: ks).zip (d :: ds) = (k, d) :: ks.zip ds from rfl,
            dictUpdate_cons (k, d) (ks.zip ds) _ (hcons _ (collectValid_keys ks vs)),
            ih ds vs hnd' hlen' hvs']
          simp [hv]
        · have hvv : (validate k (some v)).2 = pyFloat? v := by
            show (if v = [] then (k, (none : Option ℚ)) else (k, pyFloat? v)).2 = pyFloat? v
            rw [if_neg hv]
          cases hpf : pyFloat? v with
          | none =>
            rw [collectValid_cons_none k ks v vs (hvv.trans hpf),
              show (k :: ks).zip (d :: ds) = (k, d) :: ks.zip ds from rfl,
              dictUpdate_cons (k, d) (ks.zip ds) _ (hcons _ (collectValid_keys ks vs)),
              ih ds vs hnd' hlen' hvs']
            simp [hv, hpf]
          | some x =>
            rw [collectValid_cons_some k ks v vs x (hvv.trans hpf),
              show (k :: ks).zip (d :: ds) = (k, d) :: ks.zip ds from rfl]
            have hstep : dictUpdate ((k, d) :: ks.zip ds) ((k, x) :: collectValid ks vs) =
                dictUpdate (updateEntry ((k, d) :: ks.zip ds) (k, x)) (collectValid ks vs) := rfl
            have hupd : updateEntry ((k, d) :: ks.zip ds) (k, x) = (k, x) :: ks.zip ds := by
              unfold updateEntry
              rw [if_pos (by simp [List.any_cons]), List.map_cons, if_pos rfl,
                map_replace_notmem (ks.zip ds) (k, x) (by rw [hkeys]; exact hk)]
            rw [hstep, hupd,
              dictUpdate_cons (k, x) (ks.zip ds) _ (hcons _ (collectValid_keys ks vs)),
              ih ds vs hnd' hlen' hvs']
            simp [hv, hpf]

/-- C3: for every explicit preset argument string (non-empty, as supplied via
`--preset`) with at most six comma-separated fields, the resolved parameter
dictionary equals the defaults `(-75, 0.16, 6, 120, 120, 0.48)` overridden
positionally by exactly the fields that parse as floats, in the fixed order
`(thresh, minquiet, mindetect, minbreak, maxsep, pad)`; empty or unparseable
fields retain the default. -/
theorem C3_preset_arg_resolution (line : String)
    (hlen : (splitComma line.toList).length ≤ 6) :
    getFromArg argdictInit line =
      argname.zip (overrideVals argval ((splitComma line.toList).map pyStrip)) := by
  by_cases hne : line = ""
  · subst hne
    decide
  unfold getFromArg
  rw [if_neg hne]
  unfold applyFields argdictInit
  have htake : ((splitComma line.toList).map pyStrip).take argname.length =
      (splitComma line.toList).map pyStrip := by
    apply List.take_of_length_le
    rw [List.length_map]
    exact hlen
  rw [htake]
  exact dictUpdate_zip argname argval _ (by decide) (by decide)
    (by rw [List.length_map]; exact hlen)

/-- Witness for C3 at the spec's end-to-end scenario A: the concrete string
`"-70,0.2,,150,,"` satisfies the hypotheses and resolves to
`(-70, 0.2, 6, 150, 120, 0.48)`. -/
theorem C3_preset_arg_resolution_witness :
    (splitComma ("-70,0.2,,150,," : String).toList).length ≤ 6 ∧
    getFromArg argdictInit "-70,0.2,,150,," =
      argname.zip (overrideVals argval
        ((splitComma ("-70,0.2,,150,," : String).toList).map pyStrip)) ∧
    getFromArg argdictInit "-70,0.2,,150,," =
      [("thresh", -70), ("minquiet", 2/10), ("mindetect", 6), ("minbreak", 150),
        ("maxsep", 120), ("pad", 48/100)] :=
  ⟨by decide, C3_preset_arg_resolution _ (by decide), by decide⟩

/-! ### Preset file resolution: `PRESET.getFromFile`

The regular-expression engine is external library code (`re`); the loop
takes the match test as a parameter `rem`, where `rem pat s` stands for
`re.match(pat, s, re.IGNORECASE) is not None` — by the `re` library's
contract a case-insensitive match anchored at the start of `s`. -/

/-- Model of Python `line.startswith('#')`. -/
def startsWithHash : List Char → Bool
  | '#' :: _ => true
  | _ => false

/-- Which of the two log lines the loop of `getFromFile` emits: the
`Using preset "..."` line of a match, or the `for`/`else`
`No preset found for "<title>" or "<callsign>"` line. -/
inductive PresetOutcome
  | usedPreset (line : List Char)
  | noPresetFound
deriving DecidableEq

/-- Embedding of the line loop of `PRESET.getFromFile`: strip each raw
line; skip blank lines and comments; for the first remaining line whose
pattern field (field 0) matches the title or the callsign, apply fields
1..6 and stop (`break`); if the loop finishes without a match, the
source's `for`/`else` logs that no preset was found and the dictionary is
left unchanged. -/
def getFromFileLines (rem : List Char → String → Bool) (title callsign : String)
    (d : List (String × ℚ)) : List (List Char) → List (String × ℚ) × PresetOutcome
  | [] => (d, .noPresetFound)
  | rawline :: rest =>
    let line := pyStrip rawline
    if line = [] ∨ startsWithHash line then getFromFileLines rem title callsign d rest
    else
      let vals := (splitComma line).map pyStrip
      if rem (vals.headD []) title || rem (vals.headD []) callsign then
        (applyFields d ((vals.drop 1).take argname.length), .usedPreset line)
      else getFromFileLines rem title callsign d rest

/-- Embedding of `PRESET.getFromFile`: a missing file raises `IOError`,
which the source catches and logs, leaving the dictionary unchanged
(outcome `none`); otherwise the line loop runs. -/
def getFromFile (rem : List Char → String → Bool) (title callsign : String)
    (d : List (String × ℚ)) (file : Option (List (List Char))) :
    List (String × ℚ) × Option PresetOutcome :=
  match file with
  | none => (d, none)
  | some lines =>
    let r := getFromFileLines rem title callsign d lines
    (r.1, some r.2)

/-- A raw preset-file line the loop skips: blank after stripping, or a
comment line. -/
def lineSkipped (rawline : List Char) : Prop :=
  pyStrip rawline = [] ∨ startsWithHash (pyStrip rawline) = true

instance (rawline : List Char) : Decidable (lineSkipped rawline) := by
  unfold lineSkipped
  infer_instance

/-- The pattern field (field 0, stripped) of a preset-file line. -/
def patternOf (rawline : List Char) : List Char :=
  ((splitComma (pyStrip rawline)).map pyStrip).headD []

/-- The parameter fields (fields 1..6, stripped) of a preset-file line. -/
def fieldsOf (rawline : List Char) : List (List Char) :=
  (((splitComma (pyStrip rawline)).map pyStrip).drop 1).take argname.length

/-- The line's pattern matches the recording: `re.match` against the title
or the callsign succeeds. -/
def lineMatches (rem : List Char → String → Bool) (title callsign : String)
    (rawline : List Char) : Prop :=
  (rem (patternOf rawline) title || rem (patternOf rawline) callsign) = true

instance (rem : List Char → String → Bool) (title callsign : String)
    (rawline : List Char) : Decidable (lineMatches rem title callsign rawline) := by
  unfold lineMatches
  infer_instance

/-- A concrete anchored case-insensitive matcher used to instantiate the
abstract `re.match` parameter in witnesses: literal pattern as a prefix of
the string, case-insensitively — which is exactly what
`re.match(pat, s, re.IGNORECASE)` computes for patterns without regex
metacharacters. -/
def ciLiteralMatch (pat : List Char) (s : String) : Bool :=
  (pat.map Char.toLower).isPrefixOf (s.toList.map Char.toLower)

/-- C4: the first non-blank non-comment line of the preset file whose
pattern field matches the title or the callsign fully determines the
parameter overrides (fields 1..6 of that line applied to the dictionary),
and no later line of the file is considered: the result is independent of
everything after the matching line. -/
theorem C4_preset_file_first_match (rem : List Char → String → Bool)
    (title callsign : String) (d : List (String × ℚ))
    (pre post : List (List Char)) (l : List Char)
    (hpre : ∀ raw ∈ pre, lineSkipped raw ∨ ¬ lineMatches rem title callsign raw)
    (hl1 : ¬ lineSkipped l) (hl2 : lineMatches rem title callsign l) :
    getFromFileLines rem title callsign d (pre ++ l :: post) =
      (applyFields d (fieldsOf l), .usedPreset (pyStrip l)) := by
  induction pre with
  | nil =>
    rw [List.nil_append]
    have hl1' : ¬(pyStrip l = [] ∨ startsWithHash (pyStrip l) = true) := hl1
    have hl2' : (rem ((List.map pyStrip (splitComma (pyStrip l))).headD []) title ||
        rem ((List.map pyStrip (splitComma (pyStrip l))).headD []) callsign) = true := hl2
    show (if pyStrip l = [] ∨ startsWithHash (pyStrip l) = true then _ else _) = _
    rw [if_neg hl1', if_pos hl2']
    rfl
  | cons raw pre ih =>
    have hskip := hpre raw (List.mem_cons_self raw pre)
    have ih' := ih (fun r hr => hpre r (List.mem_cons_of_mem raw hr))
    rw [List.cons_append]
    show (if pyStrip raw = [] ∨ startsWithHash (pyStrip raw) = true then
      getFromFileLines rem title callsign d (pre ++ l :: post) else _) = _
    by_cases hs : pyStrip raw = [] ∨ startsWithHash (pyStrip raw) = true
    · rw [if_pos hs]
      exact ih'
    · rw [if_neg hs]
      have hnm : ¬ lineMatches rem title callsign raw := by
        rcases hskip with h | h
        · exact absurd h hs
        · exact h
      have hnm' : ¬((rem ((List.map pyStrip (splitComma (pyStrip raw))).headD []) title ||
          rem ((List.map pyStrip (splitComma (pyStrip raw))).headD []) callsign) = true) := hnm
      rw [if_neg hnm']
      exact ih'

/-- Witness for C4: with a literal case-insensitive matcher, title
`"News"` and callsign `"NEWS1"`, the third file line `news,-70,0.2` is the
first matching line; the comment, the blank line and the non-matching
`Movies` line before it are passed over, the `News,-99` line after it is
never considered, and the resolved dictionary applies exactly its fields. -/
theorem C4_preset_file_first_match_witness :
    (∀ raw ∈ [("# tuned presets".toList), ("".toList), ("Movies,-60,0.1".toList)],
      lineSkipped raw ∨ ¬ lineMatches ciLiteralMatch "News" "NEWS1" raw) ∧
    ¬ lineSkipped "news,-70,0.2".toList ∧
    lineMatches ciLiteralMatch "News" "NEWS1" "news,-70,0.2".toList ∧
    getFromFileLines ciLiteralMatch "News" "NEWS1" argdictInit
      ["# tuned presets".toList, "".toList, "Movies,-60,0.1".toList,
        "news,-70,0.2".toList, "News,-99".toList] =
      (applyFields argdictInit (fieldsOf "news,-70,0.2".toList),
        .usedPreset "news,-70,0.2".toList) ∧
    applyFields argdictInit (fieldsOf "news,-70,0.2".toList) =
      [("thresh", -70), ("minquiet", 2/10), ("mindetect", 6), ("minbreak", 120),
        ("maxsep", 120), ("pad", 48/100)] :=
  ⟨by decide, by decide, by decide,
    C4_preset_file_first_match ciLiteralMatch "News" "NEWS1" argdictInit
      ["# tuned presets".toList, "".toList, "Movies,-60,0.1".toList]
      ["News,-99".toList] "news,-70,0.2".toList
      (by decide) (by decide) (by decide),
    by decide⟩

/-- C5: if no line of the preset file matches the title or the callsign,
the resolved dictionary equals the pure defaults, the `for`/`else`
"No preset found" log line is produced, and the resolver returns normally
(it is a total function; no exception escapes). -/
theorem C5_preset_file_no_match (rem : List Char → String → Bool)
    (title callsign : String) (lines : List (List Char))
    (hall : ∀ raw ∈ lines, lineSkipped raw ∨ ¬ lineMatches rem title callsign raw) :
    getFromFileLines rem title callsign argdictInit lines =
      (argdictInit, .noPresetFound) := by
  induction lines with
  | nil => rfl
  | cons raw rest ih =>
    have hskip := hall raw (List.mem_cons_self raw rest)
    have ih' := ih (fun r hr => hall r (List.mem_cons_of_mem raw hr))
    show (if pyStrip raw = [] ∨ startsWithHash (pyStrip raw) = true then
      getFromFileLines rem title callsign argdictInit rest else _) = _
    by_cases hs : pyStrip raw = [] ∨ startsWithHash (pyStrip raw) = true
    · rw [if_pos hs]
      exact ih'
    · rw [if_neg hs]
      have hnm : ¬ lineMatches rem title callsign raw := by
        rcases hskip with h | h
        · exact absurd h hs
        · exact h
      have hnm' : ¬((rem ((List.map pyStrip (splitComma (pyStrip raw))).headD []) title ||
          rem ((List.map pyStrip (splitComma (pyStrip raw))).headD []) callsign) = true) := hnm
      rw [if_neg hnm']
      exact ih'

/-- Witness for C5 at the spec's scenario C: a preset file whose only rule
line is for `Films` matches neither title `"News"` nor callsign `"NEWS1"`;
the dictionary stays at the pure defaults and the "no preset found" branch
is taken. -/
theorem C5_preset_file_no_match_witness :
    (∀ raw ∈ [("# comment".toList), ("Films,-60".toList), ("".toList)],
      lineSkipped raw ∨ ¬ lineMatches ciLiteralMatch "News" "NEWS1" raw) ∧
    getFromFileLines ciLiteralMatch "News" "NEWS1" argdictInit
      ["# comment".toList, "Films,-60".toList, "".toList] =
      (argdictInit, .noPresetFound) :=
  ⟨by decide,
    C5_preset_file_no_match ciLiteralMatch "News" "NEWS1"
      ["# comment".toList, "Films,-60".toList, "".toList] (by decide)⟩

/-! ### The stream-processing loop and run control of `main`

`main` is modelled from the storage-group lookup (`MythTV.findfile`)
onwards.  Its side effects are returned as an explicit list of actions in
program order; informational logs emitted before the lookup (job banner,
"Seeking", "Processing") precede the modelled slice and are not part of
the trace, and neither is the preset resolution, which is modelled above.
Detector output lines are modelled without their trailing newline (the
logger strips it and no other use depends on it). -/

/-- Log levels of `main`'s `level` dictionary and of the logger calls. -/
inductive LogLvl
  | INFO
  | DEBUG
  | ERR
  | WARNING
deriving DecidableEq

/-- The Python exceptions the loop body can raise; both escape to the
top-level handler of `main`. -/
inductive PyErr
  | valueError
  | indexError
deriving DecidableEq

/-- Modelled from the spec: the external record store's mark-kind
constants `rec.markup.MARK_COMM_START` and `rec.markup.MARK_COMM_END`
(the spec calls them STARTKIND and ENDKIND; the numeric values are the
store's own). -/
def MARK_COMM_START : ℕ := 4

/-- Modelled from the spec: see `MARK_COMM_START`. -/
def MARK_COMM_END : ℕ := 5

/-- Modelled from the spec: the job store's ERRORED status constant,
referenced by the source as `job.ERRORED`.  (The success path of the
source uses the literal status 272 directly.) -/
def jobERRORED : ℕ := 304

/-- The externally visible actions of `main`, in program order:
process spawns, record-store writes, backend commands, log lines, job
status updates, and the final delay. -/
inductive Action
  | startTail
  | startFfmpeg
  | startSilence
  | setFlagged (n : ℕ)
  | cleanMarkup
  | updateRec
  | appendMark (frame kind : ℕ)
  | backendCmd (cmd : String)
  | logMsg (lvl : LogLvl) (msg : String)
  | logAccessError
  | logFailure (e : PyErr)
  | jobUpdate (status : ℕ) (comment : String)
  | sleepDelay
deriving DecidableEq

/-- In-memory loop state: the recording's markup (the appended
(frame, kind) marks, after the initial `markup.clean()`) and the break
counter. -/
structure LoopState where
  markup : List (ℕ × ℕ)
  breaks : ℕ
deriving DecidableEq

deriving instance DecidableEq for Except

/-- Modelled from the spec: `rec.markup.getskiplist()` of the external
record store — the cumulative break regions as (start, end) pairs,
obtained by pairing consecutive START/END marks in insertion order. -/
def getskiplist : List (ℕ × ℕ) → List (ℕ × ℕ)
  | (s, _) :: (e, _) :: rest => (s, e) :: getskiplist rest
  | _ => []

/-- One skip-list entry as formatted by the source:
`'%d:%d,%d:%d' % (x, MARK_COMM_START, y, MARK_COMM_END)`. -/
def fmtRegion (p : ℕ × ℕ) : String :=
  toString p.1 ++ ":" ++ toString MARK_COMM_START ++ "," ++
    toString p.2 ++ ":" ++ toString MARK_COMM_END

/-- Model of Python `','.join(strings)`. -/
def joinComma : List String → String
  | [] => ""
  | [s] => s
  | s :: rest => s ++ "," ++ joinComma rest

/-- Model of `str(utc).replace(' ', 'T')` (single-character pattern, so a
character map). -/
def replaceSpaceT (s : String) : String :=
  String.mk (s.toList.map (fun c => if c = ' ' then 'T' else c))

/-- Embedding of `progId = '%d_%s' % (chanid, str(utc).replace(' ', 'T'))`:
the run key addressing update notifications. -/
def progIdOf (chanid : ℕ) (utc : String) : String :=
  toString chanid ++ "_" ++ replaceSpaceT utc

/-- The notification message built for a cut event:
`'COMMFLAG_UPDATE %s %s' % (progId, ','.join(skiplist))`, with the
skip-list recomputed from the markup after the two new marks were
appended. -/
def cutMesg (progId : String) (st : LoopState) (a b : List Char) : String :=
  "COMMFLAG_UPDATE " ++ progId ++ " " ++
    joinComma ((getskiplist (st.markup ++
      [(digitsToNat a, MARK_COMM_START), (digitsToNat b, MARK_COMM_END)])).map fmtRegion)

/-- One iteration of the `while True` loop of `main` on a non-empty line.
Returns the actions performed, in order, and either the successor state or
the exception the body raises.  `beResp` gives the backend's response to
each command string (`be.backendCommand`).  A line with no `@` makes the
unpacking of `line.split('@', 1)` raise `ValueError`; a cut payload with
fewer than two digit runs makes `numbers[0]`/`numbers[1]` raise
`IndexError` (after the payload was already logged, and after the first
mark was appended when one digit run exists). -/
def processLine (beResp : String → String) (progId : String) (st : LoopState)
    (line : List Char) : List Action × Except PyErr LoopState :=
  match splitAt1 '@' line with
  | none => ([], .error .valueError)
  | some (flag, info) =>
    if flag = "cut".toList then
      match digitRuns info with
      | [] => ([.logMsg .INFO (String.mk info)], .error .indexError)
      | [a] => ([.logMsg .INFO (String.mk info),
          .appendMark (digitsToNat a) MARK_COMM_START], .error .indexError)
      | a :: b :: _ =>
        let mesg := cutMesg progId st a b
        let result := beResp ("MESSAGE[]:[]" ++ mesg)
        ([.logMsg .INFO (String.mk info),
          .appendMark (digitsToNat a) MARK_COMM_START,
          .appendMark (digitsToNat b) MARK_COMM_END,
          .updateRec,
          .backendCmd ("MESSAGE[]:[]" ++ mesg)] ++
          (if result ≠ "OK" then
            [.logMsg .ERR ("Sending update message to backend failed, response = " ++
              result ++ ", message = " ++ mesg)]
          else []),
        .ok ⟨st.markup ++ [(digitsToNat a, MARK_COMM_START), (digitsToNat b, MARK_COMM_END)],
          st.breaks + 1⟩)
    else if flag = "info".toList then ([.logMsg .INFO (String.mk info)], .ok st)
    else if flag = "debug".toList then ([.logMsg .DEBUG (String.mk info)], .ok st)
    else if flag = "err".toList then ([.logMsg .ERR (String.mk info)], .ok st)
    else ([.logMsg .WARNING (String.mk flag)], .ok st)

/-- The `while True` loop: process the stream's lines in order until the
end of the stream (`readline` returns an empty string), accumulating
actions; an exception raised by the body stops the loop and escapes. -/
def processLines (beResp : String → String) (progId : String) :
    LoopState → List (List Char) → List Action × Except PyErr LoopState
  | st, [] => ([], .ok st)
  | st, line :: rest =>
    match processLine beResp progId st line with
    | (acts, .error e) => (acts, .error e)
    | (acts, .ok st') =>
      let r := processLines beResp progId st' rest
      (acts ++ r.1, r.2)

/-- Embedding of the run control of `main` from the storage-group lookup
onwards.  Inputs: whether a job reference is attached (`args.jobid`),
whether `MythTV.findfile` located the source file (`sg is not None`), the
run key, the detector's output lines and the backend response function.
Output: the action trace and the process exit code (0 for a normal
return, 1 for `sys.exit(1)`).  When the file is missing: error log, job
marked ERRORED when a job is attached (`except AttributeError` otherwise),
exit 1 — before any process is spawned.  Otherwise the three pipeline
processes are spawned, the markup is purged and the recording flagged
in-progress (flushed), the loop runs; a normal end of stream flags the
recording done, logs and reports the break count (status 272) and sleeps;
an escaped exception logs the failure and marks the job ERRORED. -/
def runMain (jobPresent fileFound : Bool) (progId : String)
    (lines : List (List Char)) (beResp : String → String) : List Action × ℕ :=
  if fileFound = false then
    ([.logAccessError] ++
      (if jobPresent then [.jobUpdate jobERRORED "Couldn't access file"] else []), 1)
  else
    let preActs : List Action :=
      [.startTail, .startFfmpeg, .startSilence, .setFlagged 2, .cleanMarkup, .updateRec]
    let r := processLines beResp progId { markup := [], breaks := 0 } lines
    match r.2 with
    | .ok st =>
      (preActs ++ r.1 ++
        [.setFlagged 1, .updateRec,
          .logMsg .INFO ("Detected " ++ toString st.breaks ++ " adverts.")] ++
        (if jobPresent then
          [.jobUpdate 272 ("Detected " ++ toString st.breaks ++ " adverts.")] else []) ++
        [.sleepDelay], 0)
    | .error e =>
      (preActs ++ r.1 ++ [.logFailure e] ++
        (if jobPresent then [.jobUpdate jobERRORED "Failed."] else []), 1)

/-- An action kind the loop body can emit (log lines, mark appends,
record flushes, backend commands). -/
def loopAction : Action → Bool
  | .logMsg _ _ => true
  | .appendMark _ _ => true
  | .updateRec => true
  | .backendCmd _ => true
  | _ => false

/-- An action that starts a pipeline process, purges the markup, or sets
the in-progress flag (`commflagged = 2`). -/
def startOrClean : Action → Bool
  | .startTail => true
  | .startFfmpeg => true
  | .startSilence => true
  | .cleanMarkup => true
  | .setFlagged n => n == 2
  | _ => false

theorem processLine_actions (beResp : String → String) (progId : String)
    (st : LoopState) (line : List Char) :
    ((processLine beResp progId st line).1).all loopAction = true := by
  rcases h : splitAt1 '@' line with _ | ⟨flag, info⟩
  · simp only [processLine, h]
    rfl
  · simp only [processLine, h]
    by_cases hc : flag = "cut".toList
    · rw [if_pos hc]
      rcases hd : digitRuns info with _ | ⟨a, _ | ⟨b, t⟩⟩ <;> simp only [hd]
      · rfl
      · rfl
      · show (_ ++ (if _ then _ else _) : List Action).all loopAction = true
        split
        · rfl
        · rfl
    · rw [if_neg hc]
      by_cases h1 : flag = "info".toList
      · rw [if_pos h1]; rfl
      · rw [if_neg h1]
        by_cases h2 : flag = "debug".toList
        · rw [if_pos h2]; rfl
        · rw [if_neg h2]
          by_cases h3 : flag = "err".toList
          · rw [if_pos h3]; rfl
          · rw [if_neg h3]; rfl

theorem processLines_actions (beResp : String → String) (progId : String)
    (lines : List (List Char)) : ∀ st : LoopState,
    ((processLines beResp progId st lines).1).all loopAction = true := by
  induction lines with
  | nil => intro st; rfl
  | cons line rest ih =>
    intro st
    have hline := processLine_actions beResp progId st line
    show ((match processLine beResp progId st line with
      | (acts, .error e) => (acts, Except.error e)
      | (acts, .ok st') =>
        let r := processLines beResp progId st' rest
        (acts ++ r.1, r.2)).1).all loopAction = true
    rcases hp : processLine beResp progId st line with ⟨acts, res⟩
    rw [hp] at hline
    cases res with
    | error e => exact hline
    | ok st' =>
      show (acts ++ (processLines beResp progId st' rest).1).all loopAction = true
      rw [List.all_append, hline, ih st']
      rfl

theorem loopAction_not_startOrClean (a : Action) (h : loopAction a = true) :
    startOrClean a = false := by
  cases a <;> simp_all [loopAction, startOrClean]

/-- C1 is false of the code at a concrete input: in a run where the source
file is found (here with a job attached and an immediately ending stream),
the first three actions of the trace are the three pipeline process spawns,
and the markup purge (`rec.markup.clean()`) is not among them — it only
comes fifth, after all three processes were started, so it does not happen
"before any of the three pipeline processes is started". -/
theorem C1_counterexample :
    ((runMain true true "1001_2020-01-02T03:04:05" [] (fun _ => "OK")).1.take 5 =
      [.startTail, .startFfmpeg, .startSilence, .setFlagged 2, .cleanMarkup]) ∧
    Action.cleanMarkup ∉
      ([.startTail, .startFfmpeg, .startSilence, .setFlagged 2] : List Action) :=
  ⟨rfl, by decide⟩

/-- C1 amended: the run controller clears the existing markup and sets the
in-progress status immediately after spawning the three pipeline processes
and before processing any detector output — positions 0–5 of every
found-file trace are exactly the three spawns followed by
`commflagged = 2`, `markup.clean()` and the flush, and nothing later in
the trace spawns a process, purges markup or sets the in-progress flag
again, so stale skip-lists are still never visible while breaks are being
appended. -/
theorem C1_clean_after_spawn_before_stream (jobPresent : Bool) (progId : String)
    (lines : List (List Char)) (beResp : String → String) :
    (runMain jobPresent true progId lines beResp).1.take 6 =
      [.startTail, .startFfmpeg, .startSilence, .setFlagged 2, .cleanMarkup, .updateRec] ∧
    ((runMain jobPresent true progId lines beResp).1.drop 6).all
      (fun a => !startOrClean a) = true := by
  have hall : ((processLines beResp progId ⟨[], 0⟩ lines).1).all
      (fun a => !startOrClean a) = true := by
    rw [List.all_eq_true]
    intro a ha
    have h1 : loopAction a = true := by
      have := processLines_actions beResp progId lines ⟨[], 0⟩
      rw [List.all_eq_true] at this
      exact this a ha
    rw [loopAction_not_startOrClean a h1]
    rfl
  unfold runMain
  rw [if_neg (by decide)]
  rcases hres : (processLines beResp progId ⟨[], 0⟩ lines).2 with e | st
  all_goals simp only [hres]
  · constructor
    · rw [show ([.startTail, .startFfmpeg, .startSilence, .setFlagged 2, .cleanMarkup,
        .updateRec] : List Action) ++ (processLines beResp progId ⟨[], 0⟩ lines).1 ++
        [.logFailure e] ++ (if jobPresent then [.jobUpdate jobERRORED "Failed."] else []) =
        [.startTail, .startFfmpeg, .startSilence, .setFlagged 2, .cleanMarkup, .updateRec] ++
        ((processLines beResp progId ⟨[], 0⟩ lines).1 ++ [.logFailure e] ++
          (if jobPresent then [.jobUpdate jobERRORED "Failed."] else [])) by
          simp [List.append_assoc]]
      exact List.take_left' rfl
    · rw [show ([.startTail, .startFfmpeg, .startSilence, .setFlagged 2, .cleanMarkup,
        .updateRec] : List Action) ++ (processLines beResp progId ⟨[], 0⟩ lines).1 ++
        [.logFailure e] ++ (if jobPresent then [.jobUpdate jobERRORED "Failed."] else []) =
        [.startTail, .startFfmpeg, .startSilence, .setFlagged 2, .cleanMarkup, .updateRec] ++
        ((processLines beResp progId ⟨[], 0⟩ lines).1 ++ [.logFailure e] ++
          (if jobPresent then [.jobUpdate jobERRORED "Failed."] else [])) by
          simp [List.append_assoc]]
      rw [@List.drop_left' Action [.startTail, .startFfmpeg, .startSilence, .setFlagged 2,
        .cleanMarkup, .updateRec] _ 6 rfl, List.all_append, List.all_append, hall]
      cases jobPresent <;> rfl
  · constructor
    · rw [show ([.startTail, .startFfmpeg, .startSilence, .setFlagged 2, .cleanMarkup,
        .updateRec] : List Action) ++ (processLines beResp progId ⟨[], 0⟩ lines).1 ++
        [.setFlagged 1, .updateRec, .logMsg .INFO ("Detected " ++ toString st.breaks ++
          " adverts.")] ++ (if jobPresent then [.jobUpdate 272 ("Detected " ++
          toString st.breaks ++ " adverts.")] else []) ++ [.sleepDelay] =
        [.startTail, .startFfmpeg, .startSilence, .setFlagged 2, .cleanMarkup, .updateRec] ++
        ((processLines beResp progId ⟨[], 0⟩ lines).1 ++ [.setFlagged 1, .updateRec,
          .logMsg .INFO ("Detected " ++ toString st.breaks ++ " adverts.")] ++
          (if jobPresent then [.jobUpdate 272 ("Detected " ++ toString st.breaks ++
            " adverts.")] else []) ++ [.sleepDelay]) by simp [List.append_assoc]]
      exact List.take_left' rfl
    · rw [show ([.startTail, .startFfmpeg, .startSilence, .setFlagged 2, .cleanMarkup,
        .updateRec] : List Action) ++ (processLines beResp progId ⟨[], 0⟩ lines).1 ++
        [.setFlagged 1, .updateRec, .logMsg .INFO ("Detected " ++ toString st.breaks ++
          " adverts.")] ++ (if jobPresent then [.jobUpdate 272 ("Detected " ++
          toString st.breaks ++ " adverts.")] else []) ++ [.sleepDelay] =
        [.startTail, .startFfmpeg, .startSilence, .setFlagged 2, .cleanMarkup, .updateRec] ++
        ((processLines beResp progId ⟨[], 0⟩ lines).1 ++ [.setFlagged 1, .updateRec,
          .logMsg .INFO ("Detected " ++ toString st.breaks ++ " adverts.")] ++
          (if jobPresent then [.jobUpdate 272 ("Detected " ++ toString st.breaks ++
            " adverts.")] else []) ++ [.sleepDelay]) by simp [List.append_assoc]]
      rw [@List.drop_left' Action [.startTail, .startFfmpeg, .startSilence, .setFlagged 2,
        .cleanMarkup, .updateRec] _ 6 rfl]
      simp only [List.all_append, hall]
      cases jobPresent <;> rfl

/-- C2 is false of the code at a concrete input: the anomalous line
`silence detected` contains no `@`, so `flag, info = line.split('@', 1)`
raises `ValueError`; the loop terminates immediately, the following
well-formed line `info@hello` is never processed (no INFO log for it
appears in the trace), the job is marked ERRORED and the process exits 1 —
the anomaly does not degrade to a warning. -/
theorem C2_counterexample :
    runMain true true "1001_T" ["silence detected".toList, "info@hello".toList]
      (fun _ => "OK") =
      ([.startTail, .startFfmpeg, .startSilence, .setFlagged 2, .cleanMarkup, .updateRec,
        .logFailure .valueError, .jobUpdate jobERRORED "Failed."], 1) := rfl

/-- C2 amended: an unrecognized tag on a well-formed `tag@payload` line
degrades to a WARNING log and never terminates the loop; but the loop body
raises (terminating the stream-processing loop and the run) exactly when
the line has no `@` separator (`ValueError` from unpacking) or when it is
cut-tagged with fewer than two digit runs in its payload (`IndexError`). -/
theorem C2_anomaly_characterization (beResp : String → String) (progId : String)
    (st : LoopState) (line : List Char) :
    (∃ e, (processLine beResp progId st line).2 = .error e) ↔
      splitAt1 '@' line = none ∨
      (∃ info, splitAt1 '@' line = some ("cut".toList, info) ∧
        (digitRuns info).length < 2) := by
  rcases h : splitAt1 '@' line with _ | ⟨flag, info⟩
  · simp [processLine, h]
  · by_cases hc : flag = "cut".toList
    · subst hc
      rcases hd : digitRuns info with _ | ⟨a, _ | ⟨b, t⟩⟩
      · simp [processLine, h, hd]
      · simp [processLine, h, hd]
      · simp [processLine, h, hd]
    · simp only [processLine, h]
      rw [if_neg hc]
      split_ifs <;> simp [hc] <;> intro hf <;> exact absurd hf hc

/-! ### C6: cut-payload digit extraction -/

theorem digitRunsAux_skip (p : List Char) (rest : List Char)
    (hp : ∀ c ∈ p, c.isDigit = false) :
    digitRunsAux (p ++ rest) [] = digitRunsAux rest [] := by
  induction p with
  | nil => rfl
  | cons c p ih =>
    have hc := hp c (List.mem_cons_self c p)
    have ih' := ih (fun x hx => hp x (List.mem_cons_of_mem c hx))
    show (if c.isDigit = true then digitRunsAux (p ++ rest) [c]
      else if ([] : List Char) = [] then digitRunsAux (p ++ rest) []
      else ([] : List Char).reverse :: digitRunsAux (p ++ rest) []) = digitRunsAux rest []
    rw [if_neg (by simp [hc]), if_pos rfl]
    exact ih'

theorem digitRunsAux_run (a : List Char) : ∀ (rest acc : List Char),
    (∀ c ∈ a, c.isDigit = true) →
    digitRunsAux (a ++ rest) acc = digitRunsAux rest (a.reverse ++ acc) := by
  induction a with
  | nil =>
    intro rest acc _
    simp
  | cons c a ih =>
    intro rest acc ha
    have hc := ha c (List.mem_cons_self c a)
    show (if c.isDigit = true then digitRunsAux (a ++ rest) (c :: acc)
      else if acc = [] then digitRunsAux (a ++ rest) []
      else acc.reverse :: digitRunsAux (a ++ rest) []) =
      digitRunsAux rest ((c :: a).reverse ++ acc)
    rw [if_pos hc, ih rest (c :: acc) (fun x hx => ha x (List.mem_cons_of_mem c hx))]
    simp [List.append_assoc]

theorem digitRunsAux_tail (p : List Char) (acc : List Char)
    (hp : ∀ c ∈ p, c.isDigit = false) (hacc : acc ≠ []) :
    digitRunsAux p acc = [acc.reverse] := by
  cases p with
  | nil =>
    show (if acc = [] then [] else [acc.reverse]) = [acc.reverse]
    rw [if_neg hacc]
  | cons c p =>
    have hc := hp c (List.mem_cons_self c p)
    show (if c.isDigit = true then digitRunsAux p (c :: acc)
      else if acc = [] then digitRunsAux p []
      else acc.reverse :: digitRunsAux p []) = [acc.reverse]
    have hskip : digitRunsAux p [] = ([] : List (List Char)) := by
      have h1 := digitRunsAux_skip p [] (fun x hx => hp x (List.mem_cons_of_mem c hx))
      rw [List.append_nil] at h1
      exact h1
    rw [if_neg (by simp [hc]), if_neg hacc, hskip]

theorem digitRuns_exact_two (pre a mid b post : List Char)
    (hpre : ∀ c ∈ pre, c.isDigit = false) (ha : ∀ c ∈ a, c.isDigit = true)
    (hmid : ∀ c ∈ mid, c.isDigit = false) (hb : ∀ c ∈ b, c.isDigit = true)
    (hpost : ∀ c ∈ post, c.isDigit = false)
    (hane : a ≠ []) (hbne : b ≠ []) (hmidne : mid ≠ []) :
    digitRuns (pre ++ a ++ mid ++ b ++ post) = [a, b] := by
  unfold digitRuns
  rw [show pre ++ a ++ mid ++ b ++ post = pre ++ (a ++ (mid ++ (b ++ post))) by
    simp [List.append_assoc]]
  rw [digitRunsAux_skip pre _ hpre, digitRunsAux_run a _ [] ha]
  cases mid with
  | nil => exact absurd rfl hmidne
  | cons m mid' =>
    have hm := hmid m (List.mem_cons_self m mid')
    rw [List.append_nil, List.cons_append]
    show (if m.isDigit = true then digitRunsAux (mid' ++ (b ++ post)) (m :: a.reverse)
      else if a.reverse = [] then digitRunsAux (mid' ++ (b ++ post)) []
      else a.reverse.reverse :: digitRunsAux (mid' ++ (b ++ post)) []) = [a, b]
    rw [if_neg (by simp [hm]), if_neg (by simp [hane]),
      digitRunsAux_skip mid' _ (fun x hx => hmid x (List.mem_cons_of_mem m hx)),
      digitRunsAux_run b post [] hb]
    simp only [List.append_nil]
    rw [digitRunsAux_tail post b.reverse hpost (by simp [hbne])]
    simp

theorem splitAt1_of_append (s p : List Char) (hs : '@' ∉ s) :
    splitAt1 '@' (s ++ '@' :: p) = some (s, p) := by
  induction s with
  | nil => rfl
  | cons c s ih =>
    have hc : c ≠ '@' := fun h => hs (h ▸ List.mem_cons_self c s)
    show (if c = '@' then some (([] : List Char), s ++ '@' :: p)
      else (splitAt1 '@' (s ++ '@' :: p)).map (fun q => (c :: q.1, q.2))) = some (c :: s, p)
    rw [if_neg hc, ih (fun h => hs (List.mem_cons_of_mem c h))]
    rfl

/-- C6: for every cut-tagged line whose payload consists of exactly two
runs of decimal digits embedded anywhere in otherwise non-numeric text
(`pre`, `mid`, `post` contain no digits; `mid` is non-empty so the two
runs are separate), the extraction finds exactly those two runs, and the
processed break appends precisely (int of first run, START) and (int of
second run, END) to the markup — regardless of the surrounding text. -/
theorem C6_cut_two_integers (beResp : String → String) (progId : String)
    (st : LoopState) (pre a mid b post : List Char)
    (hpre : ∀ c ∈ pre, c.isDigit = false) (ha : ∀ c ∈ a, c.isDigit = true)
    (hmid : ∀ c ∈ mid, c.isDigit = false) (hb : ∀ c ∈ b, c.isDigit = true)
    (hpost : ∀ c ∈ post, c.isDigit = false)
    (hane : a ≠ []) (hbne : b ≠ []) (hmidne : mid ≠ []) :
    digitRuns (pre ++ a ++ mid ++ b ++ post) = [a, b] ∧
    (processLine beResp progId st
        ("cut@".toList ++ (pre ++ a ++ mid ++ b ++ post))).2 =
      .ok ⟨st.markup ++ [(digitsToNat a, MARK_COMM_START), (digitsToNat b, MARK_COMM_END)],
        st.breaks + 1⟩ := by
  have hruns := digitRuns_exact_two pre a mid b post hpre ha hmid hb hpost hane hbne hmidne
  refine ⟨hruns, ?_⟩
  have hruns' : digitRuns (pre ++ (a ++ (mid ++ (b ++ post)))) = [a, b] := by
    rw [← List.append_assoc, ← List.append_assoc, ← List.append_assoc]
    exact hruns
  have hsplit : splitAt1 '@'
      ('c' :: ('u' :: ('t' :: ('@' :: (pre ++ (a ++ (mid ++ (b ++ post)))))))) =
      some (['c', 'u', 't'], pre ++ (a ++ (mid ++ (b ++ post)))) :=
    splitAt1_of_append ['c', 'u', 't'] (pre ++ (a ++ (mid ++ (b ++ post)))) (by decide)
  simp [processLine, hsplit, hruns']

/-- Witness for C6 at the spec's scenario B payload `silence 1200-1500ms`:
the two embedded runs `1200` and `1500` become the break (1200, 1500) even
though the payload carries surrounding text. -/
theorem C6_cut_two_integers_witness :
    (∀ c ∈ "silence ".toList, c.isDigit = false) ∧
    (∀ c ∈ "1200".toList, c.isDigit = true) ∧
    (∀ c ∈ "-".toList, c.isDigit = false) ∧
    (∀ c ∈ "1500".toList, c.isDigit = true) ∧
    (∀ c ∈ "ms".toList, c.isDigit = false) ∧
    ("1200".toList ≠ []) ∧ ("1500".toList ≠ []) ∧ ("-".toList ≠ []) ∧
    (digitRuns ("silence ".toList ++ "1200".toList ++ "-".toList ++ "1500".toList ++
        "ms".toList) = ["1200".toList, "1500".toList] ∧
      (processLine (fun _ => "OK") "1001_x" ⟨[], 0⟩
          ("cut@".toList ++ ("silence ".toList ++ "1200".toList ++ "-".toList ++
            "1500".toList ++ "ms".toList))).2 =
        .ok ⟨[] ++ [(digitsToNat "1200".toList, MARK_COMM_START),
          (digitsToNat "1500".toList, MARK_COMM_END)], 0 + 1⟩) ∧
    digitsToNat "1200".toList = 1200 ∧ digitsToNat "1500".toList = 1500 :=
  ⟨by decide, by decide, by decide, by decide, by decide, by decide, by decide, by decide,
    C6_cut_two_integers (fun _ => "OK") "1001_x" ⟨[], 0⟩ _ _ _ _ _
      (by decide) (by decide) (by decide) (by decide) (by decide)
      (by decide) (by decide) (by decide),
    by decide, by decide⟩


/-! ### C7 and C8: break persistence and notification -/

/-- The markup obtained by appending the given break regions in order:
each region contributes its START mark then its END mark. -/
def regionsFlat : List (ℕ × ℕ) → List (ℕ × ℕ)
  | [] => []
  | (x, y) :: rs => (x, MARK_COMM_START) :: (y, MARK_COMM_END) :: regionsFlat rs

theorem getskiplist_regionsFlat (rs : List (ℕ × ℕ)) (extra : List (ℕ × ℕ)) :
    getskiplist (regionsFlat rs ++ extra) = rs ++ getskiplist extra := by
  induction rs with
  | nil => rfl
  | cons r rs ih =>
    obtain ⟨x, y⟩ := r
    show (x, y) :: getskiplist (regionsFlat rs ++ extra) = (x, y) :: (rs ++ getskiplist extra)
    rw [ih]

/-- The backend command strings among a list of actions, in order. -/
def sentCmds (acts : List Action) : List String :=
  acts.filterMap (fun a => match a with | .backendCmd m => some m | _ => none)

/-- The full effect of the loop body on a cut line whose payload has at
least two digit runs: the shared computation behind the notification and
persistence claims. -/
theorem processLine_cut (beResp : String → String) (progId : String) (st : LoopState)
    (payload a b : List Char) (tail : List (List Char))
    (hruns : digitRuns payload = a :: b :: tail) :
    processLine beResp progId st ("cut@".toList ++ payload) =
      ([.logMsg .INFO (String.mk payload),
        .appendMark (digitsToNat a) MARK_COMM_START,
        .appendMark (digitsToNat b) MARK_COMM_END,
        .updateRec,
        .backendCmd ("MESSAGE[]:[]" ++ cutMesg progId st a b)] ++
        (if beResp ("MESSAGE[]:[]" ++ cutMesg progId st a b) ≠ "OK" then
          [.logMsg .ERR ("Sending update message to backend failed, response = " ++
            beResp ("MESSAGE[]:[]" ++ cutMesg progId st a b) ++ ", message = " ++
            cutMesg progId st a b)]
        else []),
       .ok ⟨st.markup ++ [(digitsToNat a, MARK_COMM_START), (digitsToNat b, MARK_COMM_END)],
        st.breaks + 1⟩) := by
  have hsplit : splitAt1 '@' ("cut@".toList ++ payload) = some ("cut".toList, payload) :=
    splitAt1_of_append "cut".toList payload (by decide)
  simp only [processLine, hsplit, if_true]
  rw [hruns]

/-- C7: processing a cut line in a state whose markup holds the previously
appended regions `rs` sends exactly one backend command; it is the single
string `COMMFLAG_UPDATE <run-key> <skiplist>` (on the backend's
`MESSAGE[]:[]` command framing), where the run key is
`<chanid>_<start-time with the space replaced by 'T'>` and the skiplist is
the comma-joined rendering `start:STARTKIND,end:ENDKIND` of the cumulative
region list — all of `rs` followed by the newly appended pair, in
insertion order — not just the newly appended pair. -/
theorem C7_notification_cumulative (beResp : String → String) (chanid : ℕ)
    (utc : String) (rs : List (ℕ × ℕ)) (breaks : ℕ) (payload a b : List Char)
    (tail : List (List Char))
    (hruns : digitRuns payload = a :: b :: tail) :
    sentCmds (processLine beResp (progIdOf chanid utc) ⟨regionsFlat rs, breaks⟩
        ("cut@".toList ++ payload)).1 =
      ["MESSAGE[]:[]" ++ ("COMMFLAG_UPDATE " ++ (toString chanid ++ "_" ++ replaceSpaceT utc)
        ++ " " ++ joinComma ((rs ++ [(digitsToNat a, digitsToNat b)]).map fmtRegion))] := by
  have hskip : getskiplist (regionsFlat rs ++
      [(digitsToNat a, MARK_COMM_START), (digitsToNat b, MARK_COMM_END)]) =
      rs ++ [(digitsToNat a, digitsToNat b)] := by
    rw [getskiplist_regionsFlat]
    rfl
  have hmesg : cutMesg (progIdOf chanid utc) ⟨regionsFlat rs, breaks⟩ a b =
      "COMMFLAG_UPDATE " ++ (toString chanid ++ "_" ++ replaceSpaceT utc) ++ " " ++
        joinComma ((rs ++ [(digitsToNat a, digitsToNat b)]).map fmtRegion) := by
    show "COMMFLAG_UPDATE " ++ progIdOf chanid utc ++ " " ++
        joinComma ((getskiplist (regionsFlat rs ++ [(digitsToNat a, MARK_COMM_START),
          (digitsToNat b, MARK_COMM_END)])).map fmtRegion) = _
    rw [hskip]
    rfl
  rw [processLine_cut beResp (progIdOf chanid utc) ⟨regionsFlat rs, breaks⟩
    payload a b tail hruns]
  by_cases hok : beResp ("MESSAGE[]:[]" ++
      cutMesg (progIdOf chanid utc) ⟨regionsFlat rs, breaks⟩ a b) ≠ "OK"
  · rw [if_pos hok]
    show ["MESSAGE[]:[]" ++ cutMesg (progIdOf chanid utc) ⟨regionsFlat rs, breaks⟩ a b] = _
    rw [hmesg]
  · rw [if_neg hok]
    show ["MESSAGE[]:[]" ++ cutMesg (progIdOf chanid utc) ⟨regionsFlat rs, breaks⟩ a b] = _
    rw [hmesg]

/-- Witness for C7: with run key `1001_2020-01-02T03:04:05`, one region
(100, 200) already appended and a new cut `1200-1500`, the notification
carries the full cumulative two-region skip-list. -/
theorem C7_notification_cumulative_witness :
    digitRuns "1200-1500".toList = ["1200".toList, "1500".toList] ∧
    sentCmds (processLine (fun _ => "OK") (progIdOf 1001 "2020-01-02 03:04:05")
        ⟨regionsFlat [(100, 200)], 1⟩ ("cut@".toList ++ "1200-1500".toList)).1 =
      ["MESSAGE[]:[]" ++ ("COMMFLAG_UPDATE " ++ (toString (1001 : ℕ) ++ "_" ++
        replaceSpaceT "2020-01-02 03:04:05") ++ " " ++
        joinComma (([(100, 200)] ++ [(digitsToNat "1200".toList, digitsToNat "1500".toList)]).map
          fmtRegion))] ∧
    sentCmds (processLine (fun _ => "OK") (progIdOf 1001 "2020-01-02 03:04:05")
        ⟨regionsFlat [(100, 200)], 1⟩ ("cut@".toList ++ "1200-1500".toList)).1 =
      ["MESSAGE[]:[]COMMFLAG_UPDATE 1001_2020-01-02T03:04:05 100:4,200:5,1200:4,1500:5"] :=
  ⟨by decide,
    C7_notification_cumulative (fun _ => "OK") 1001 "2020-01-02 03:04:05" [(100, 200)] 1
      "1200-1500".toList "1200".toList "1500".toList [] (by decide),
    by decide⟩

/-- C8: for every break event and every backend acknowledgment: processing
the cut line raises no exception and yields the state with both marks
appended and the break counter incremented, regardless of the response;
the action order shows the marks appended and the record flushed
(`updateRec`) strictly before the backend command is issued, with a
non-"OK" response adding only an error log afterwards; and the loop then
continues with the next lines from the updated state — a notification
failure never loses or skips a break. -/
theorem C8_notification_failure_tolerated (beResp : String → String) (progId : String)
    (st : LoopState) (payload a b : List Char) (tail : List (List Char))
    (hruns : digitRuns payload = a :: b :: tail) :
    processLine beResp progId st ("cut@".toList ++ payload) =
      ([.logMsg .INFO (String.mk payload),
        .appendMark (digitsToNat a) MARK_COMM_START,
        .appendMark (digitsToNat b) MARK_COMM_END,
        .updateRec,
        .backendCmd ("MESSAGE[]:[]" ++ cutMesg progId st a b)] ++
        (if beResp ("MESSAGE[]:[]" ++ cutMesg progId st a b) ≠ "OK" then
          [.logMsg .ERR ("Sending update message to backend failed, response = " ++
            beResp ("MESSAGE[]:[]" ++ cutMesg progId st a b) ++ ", message = " ++
            cutMesg progId st a b)]
        else []),
       .ok ⟨st.markup ++ [(digitsToNat a, MARK_COMM_START), (digitsToNat b, MARK_COMM_END)],
        st.breaks + 1⟩) ∧
    ∀ rest, processLines beResp progId st (("cut@".toList ++ payload) :: rest) =
      ((processLine beResp progId st ("cut@".toList ++ payload)).1 ++
        (processLines beResp progId
          ⟨st.markup ++ [(digitsToNat a, MARK_COMM_START), (digitsToNat b, MARK_COMM_END)],
            st.breaks + 1⟩ rest).1,
       (processLines beResp progId
          ⟨st.markup ++ [(digitsToNat a, MARK_COMM_START), (digitsToNat b, MARK_COMM_END)],
            st.breaks + 1⟩ rest).2) := by
  have hmain := processLine_cut beResp progId st payload a b tail hruns
  refine ⟨hmain, fun rest => ?_⟩
  show (match processLine beResp progId st ("cut@".toList ++ payload) with
    | (acts, .error e) => (acts, Except.error e)
    | (acts, .ok st') =>
      let r := processLines beResp progId st' rest
      (acts ++ r.1, r.2)) = _
  rw [hmain]

/-- Witness for C8: with a backend that answers `"FAIL"`, the cut `99-120`
is still persisted (both marks in the post-state, counter 1), the flush
precedes the command in the trace, the failure is logged as an error, and
the loop goes on to process a following info line. -/
theorem C8_notification_failure_tolerated_witness :
    digitRuns "99-120".toList = ["99".toList, "120".toList] ∧
    (processLine (fun _ => "FAIL") "p" ⟨[], 0⟩ ("cut@".toList ++ "99-120".toList) =
      ([.logMsg .INFO (String.mk "99-120".toList),
        .appendMark (digitsToNat "99".toList) MARK_COMM_START,
        .appendMark (digitsToNat "120".toList) MARK_COMM_END,
        .updateRec,
        .backendCmd ("MESSAGE[]:[]" ++ cutMesg "p" ⟨[], 0⟩ "99".toList "120".toList)] ++
        (if (fun (_ : String) => "FAIL") ("MESSAGE[]:[]" ++
            cutMesg "p" ⟨[], 0⟩ "99".toList "120".toList) ≠ "OK" then
          [.logMsg .ERR ("Sending update message to backend failed, response = " ++
            (fun (_ : String) => "FAIL") ("MESSAGE[]:[]" ++
              cutMesg "p" ⟨[], 0⟩ "99".toList "120".toList) ++ ", message = " ++
            cutMesg "p" ⟨[], 0⟩ "99".toList "120".toList)]
        else []),
       .ok ⟨[] ++ [(digitsToNat "99".toList, MARK_COMM_START),
          (digitsToNat "120".toList, MARK_COMM_END)], 0 + 1⟩) ∧
      ∀ rest, processLines (fun _ => "FAIL") "p" ⟨[], 0⟩
          (("cut@".toList ++ "99-120".toList) :: rest) =
        ((processLine (fun _ => "FAIL") "p" ⟨[], 0⟩ ("cut@".toList ++ "99-120".toList)).1 ++
          (processLines (fun _ => "FAIL") "p"
            ⟨[] ++ [(digitsToNat "99".toList, MARK_COMM_START),
              (digitsToNat "120".toList, MARK_COMM_END)], 0 + 1⟩ rest).1,
         (processLines (fun _ => "FAIL") "p"
            ⟨[] ++ [(digitsToNat "99".toList, MARK_COMM_START),
              (digitsToNat "120".toList, MARK_COMM_END)], 0 + 1⟩ rest).2)) ∧
    (processLine (fun _ => "FAIL") "p" ⟨[], 0⟩ ("cut@".toList ++ "99-120".toList)).2 =
      .ok ⟨[(99, 4), (120, 5)], 1⟩ :=
  ⟨by decide,
    C8_notification_failure_tolerated (fun _ => "FAIL") "p" ⟨[], 0⟩
      "99-120".toList "99".toList "120".toList [] (by decide),
    by decide⟩


/-! ### C9: missing source file -/

/-- One of the three pipeline process spawns. -/
def isStartProc : Action → Bool
  | .startTail => true
  | .startFfmpeg => true
  | .startSilence => true
  | _ => false

/-- C9: when the recording's source file cannot be located in storage
(`MythTV.findfile` returns `None`), the run emits only the access-error
log — plus the job record set to ERRORED when a job reference is attached
(the `job.update` call raises `AttributeError` and is passed over
otherwise) — the process exits with code 1, and none of the three
pipeline processes is ever spawned. -/
theorem C9_file_not_found (jobPresent : Bool) (progId : String)
    (lines : List (List Char)) (beResp : String → String) :
    runMain jobPresent false progId lines beResp =
      ([.logAccessError] ++
        (if jobPresent then [.jobUpdate jobERRORED "Couldn't access file"] else []), 1) ∧
    ((runMain jobPresent false progId lines beResp).1.all (fun a => !isStartProc a)) = true := by
  cases jobPresent <;> exact ⟨rfl, rfl⟩

/-! ### C10: `PRESET.argdict` is class-level shared mutable state

Python's object semantics are made explicit: dictionary objects live on a
heap addressed by references; `argdict = OrderedDict(...)` is executed
once in the class body, creating the object at reference 0 named by the
class namespace; reading `self.argdict` looks the name up in the instance
namespace first and falls back to the class namespace; and
`self.argdict.update(...)` mutates the referenced object in place. -/

/-- The heap of dictionary objects. -/
structure Heap where
  dicts : List (List (String × ℚ))

/-- The class namespace of `PRESET`: `argdict` names the shared dictionary
object at reference 0, created once when the class body ran. -/
def classNS : List (String × ℕ) := [("argdict", 0)]

/-- A `PRESET` instance: its own attribute namespace, mapping attribute
names to heap references. -/
structure PInstance where
  attrs : List (String × ℕ)

/-- Embedding of `PRESET.__init__`: it only assigns `self.logger`; it does
not touch the heap and in particular creates no per-instance `argdict` and
does not restore the built-in defaults. -/
def presetInit (loggerRef : ℕ) : PInstance := ⟨[("logger", loggerRef)]⟩

/-- Python attribute lookup on `self`: the instance namespace first, then
the class namespace. -/
def lookupAttr (inst : PInstance) (name : String) : Option ℕ :=
  match inst.attrs.lookup name with
  | some r => some r
  | none => classNS.lookup name

/-- Dereference a dictionary object. -/
def heapGet (h : Heap) (r : ℕ) : List (String × ℚ) := h.dicts.getD r []

/-- In-place mutation of a dictionary object. -/
def heapSet (h : Heap) (r : ℕ) (d : List (String × ℚ)) : Heap := ⟨h.dicts.set r d⟩

/-- `getFromArg` called through an instance: `self.argdict.update(...)`
looks the attribute up (finding the class-level reference) and mutates the
referenced heap object in place. -/
def getFromArgH (h : Heap) (inst : PInstance) (line : String) : Heap :=
  match lookupAttr inst "argdict" with
  | some r => heapSet h r (getFromArg (heapGet h r) line)
  | none => h

/-- The dictionary an instance observes as `self.argdict`. -/
def argdictOf (h : Heap) (inst : PInstance) : List (String × ℚ) :=
  match lookupAttr inst "argdict" with
  | some r => heapGet h r
  | none => []

/-- C10: every `PRESET` instance aliases the single class-level dictionary
at reference 0 — a freshly constructed instance (any logger reference)
observes the current shared contents `d`, whatever they are, not the
built-in defaults; an override applied through one instance mutates that
same object, so it is visible through every other instance; and the
mutation touches nothing else on the heap.  Concretely: after
`getFromArg "-70"` through one instance, a brand-new instance reads
`thresh = -70`, which differs from the built-in default dictionary. -/
theorem C10_argdict_class_shared (d : List (String × ℚ))
    (rest : List (List (String × ℚ))) (li lj : ℕ) (line : String) :
    argdictOf ⟨d :: rest⟩ (presetInit lj) = d ∧
    argdictOf (getFromArgH ⟨d :: rest⟩ (presetInit li) line) (presetInit lj) =
      getFromArg d line ∧
    (getFromArgH ⟨d :: rest⟩ (presetInit li) line).dicts = getFromArg d line :: rest ∧
    (argdictOf (getFromArgH ⟨[argdictInit]⟩ (presetInit 1) "-70") (presetInit 2) =
      [("thresh", -70), ("minquiet", 16/100), ("mindetect", 6), ("minbreak", 120),
        ("maxsep", 120), ("pad", 48/100)] ∧
      argdictOf (getFromArgH ⟨[argdictInit]⟩ (presetInit 1) "-70") (presetInit 2) ≠
        argdictInit) :=
  ⟨rfl, rfl, rfl, by decide, by decide⟩


end Silence
